import Mathlib

/-!
Verification development for the hhsim repository: a shallow embedding of
the Hodgkin-Huxley integration engine (src/python/model.py) and of the
simulation scheduling loop (src/python/app.py), with theorems settling the
specification claims about them.  Python floats are modelled as real
numbers; list-valued recording buffers are Lean lists; the Qt timer being
active is modelled by a `running : Bool` flag (a tick callback fires only
while the timer is active).
-/

namespace HHSim

/-! ## Embedding of src/python/model.py -/

/-- The `Model` class: Hodgkin-Huxley parameters plus the four dynamic
state variables, exactly the attributes `model.py` stores on `self`. -/
structure Model where
  C_m : ℝ
  g_Na : ℝ
  g_K : ℝ
  g_L : ℝ
  E_Na : ℝ
  E_K : ℝ
  E_L : ℝ
  V : ℝ
  m : ℝ
  h : ℝ
  n : ℝ

/-- `np.clip(x, lo, hi)` from `safe_exp`: `min (max x lo) hi`. -/
noncomputable def np_clip (x lo hi : ℝ) : ℝ := min (max x lo) hi

/-- `Model.safe_exp`: clips the argument to `[-50, 50]` before `exp`
(model.py lines 32-34). -/
noncomputable def safe_exp (x : ℝ) : ℝ := Real.exp (np_clip x (-50) 50)

/-- `Model.alpha_n` (model.py lines 36-39), including the removable
singularity guard `|V + 55| < 1e-6`. -/
noncomputable def alpha_n (V : ℝ) : ℝ :=
  if |V + 55| < 1e-6 then 0.1
  else 0.01 * (V + 55) / (1 - safe_exp (-(V + 55) / 10))

/-- `Model.beta_n` (model.py lines 41-42). -/
noncomputable def beta_n (V : ℝ) : ℝ := 0.125 * safe_exp (-(V + 65) / 80)

/-- `Model.alpha_m` (model.py lines 44-47), including the removable
singularity guard `|V + 40| < 1e-6`. -/
noncomputable def alpha_m (V : ℝ) : ℝ :=
  if |V + 40| < 1e-6 then 1.0
  else 0.1 * (V + 40) / (1 - safe_exp (-(V + 40) / 10))

/-- `Model.beta_m` (model.py lines 49-50). -/
noncomputable def beta_m (V : ℝ) : ℝ := 4.0 * safe_exp (-(V + 65) / 18)

/-- `Model.alpha_h` (model.py lines 52-53). -/
noncomputable def alpha_h (V : ℝ) : ℝ := 0.07 * safe_exp (-(V + 65) / 20)

/-- `Model.beta_h` (model.py lines 55-56). -/
noncomputable def beta_h (V : ℝ) : ℝ := 1 / (1 + safe_exp (-(V + 35) / 10))

/-- `Model.__init__` (model.py lines 17-30): classic parameter defaults and
the resting initial conditions at `V = -65` with equilibrium gating. -/
noncomputable def Model.init : Model :=
  { C_m := 1.0, g_Na := 120.0, g_K := 36.0, g_L := 0.3,
    E_Na := 50.0, E_K := -77.0, E_L := -54.387,
    V := -65.0,
    m := alpha_m (-65.0) / (alpha_m (-65.0) + beta_m (-65.0)),
    h := alpha_h (-65.0) / (alpha_h (-65.0) + beta_h (-65.0)),
    n := alpha_n (-65.0) / (alpha_n (-65.0) + beta_n (-65.0)) }

/-- `Model.step` (model.py lines 58-73), transcribed line by line: gating
derivatives from the pre-update state, then the in-place gating updates,
then the ionic currents (which therefore read the already-updated `m,h,n`
but the not-yet-updated `V`), then the voltage update. -/
noncomputable def Model.step (s : Model) (dt I_ext : ℝ) : Model :=
  let dm := alpha_m s.V * (1 - s.m) - beta_m s.V * s.m
  let dh := alpha_h s.V * (1 - s.h) - beta_h s.V * s.h
  let dn := alpha_n s.V * (1 - s.n) - beta_n s.V * s.n
  let m2 := s.m + dt * dm
  let h2 := s.h + dt * dh
  let n2 := s.n + dt * dn
  let I_Na := s.g_Na * m2 ^ 3 * h2 * (s.V - s.E_Na)
  let I_K := s.g_K * n2 ^ 4 * (s.V - s.E_K)
  let I_L := s.g_L * (s.V - s.E_L)
  let dV := (I_ext - I_Na - I_K - I_L) / s.C_m
  { s with m := m2, h := h2, n := n2, V := s.V + dt * dV }

/-- Modelled from the spec's wording of `step(dt, I_ext)` (spec section 4.1,
steps 1-4): first the derivatives `dx = alpha_x(V)*(1-x) - beta_x(V)*x` from
the pre-update state, then the gating increments, then currents
`I_Na = g_Na*m^3*h*(V-E_Na)`, `I_K = g_K*n^4*(V-E_K)`, `I_L = g_L*(V-E_L)`
from the updated gating variables and the pre-update `V`, then
`V += dt*(I_ext - I_Na - I_K - I_L)/C_m`.  Written as the spec describes it,
to be compared with `Model.step` from the source. -/
noncomputable def stepSpec (s0 : Model) (dt I_ext : ℝ) : Model :=
  let dm := alpha_m s0.V * (1 - s0.m) - beta_m s0.V * s0.m
  let dh := alpha_h s0.V * (1 - s0.h) - beta_h s0.V * s0.h
  let dn := alpha_n s0.V * (1 - s0.n) - beta_n s0.V * s0.n
  let s1 := { s0 with m := s0.m + dt * dm, h := s0.h + dt * dh, n := s0.n + dt * dn }
  let I_Na := s1.g_Na * s1.m ^ 3 * s1.h * (s1.V - s1.E_Na)
  let I_K := s1.g_K * s1.n ^ 4 * (s1.V - s1.E_K)
  let I_L := s1.g_L * (s1.V - s1.E_L)
  { s1 with V := s1.V + dt * ((I_ext - I_Na - I_K - I_L) / s1.C_m) }

/-! ## Embedding of src/python/app.py (simulation-relevant state only)

GUI plumbing (widgets, plot axes, zoom/pan) is out of scope per the spec;
the embedded state is the simulation state that `update_simulation`,
`inject_current`, `toggle_pause`, `update_model_parameter` and
`reset_model_params` read and write. -/

/-- Names of the seven entries of the `neuron_params` table. -/
inductive ParamName
  | C_m | g_Na | g_K | g_L | E_Na | E_K | E_L
deriving DecidableEq

/-- The `neuron_params` table from `Model.__init__` (model.py lines 7-15):
for each parameter, its `(min, max, default)` triple (labels omitted). -/
noncomputable def neuron_params : ParamName → ℝ × ℝ × ℝ
  | .C_m => (0.1, 5.0, 1.0)
  | .g_Na => (50.0, 200.0, 120.0)
  | .g_K => (10.0, 100.0, 36.0)
  | .g_L => (0.1, 2.0, 0.3)
  | .E_Na => (40.0, 70.0, 50.0)
  | .E_K => (-100.0, -50.0, -77.0)
  | .E_L => (-70.0, -30.0, -54.387)

/-- The default (index `[3]` in the source tuples) of a parameter. -/
noncomputable def paramDefault (p : ParamName) : ℝ := (neuron_params p).2.2

/-- `setattr(self.model, param, value)`: write one named parameter field. -/
noncomputable def Model.setParam (mo : Model) : ParamName → ℝ → Model
  | .C_m, v => { mo with C_m := v }
  | .g_Na, v => { mo with g_Na := v }
  | .g_K, v => { mo with g_K := v }
  | .g_L, v => { mo with g_L := v }
  | .E_Na, v => { mo with E_Na := v }
  | .E_K, v => { mo with E_K := v }
  | .E_L, v => { mo with E_L := v }

/-- `getattr(self.model, param)`: read one named parameter field. -/
noncomputable def Model.getParam (mo : Model) : ParamName → ℝ
  | .C_m => mo.C_m
  | .g_Na => mo.g_Na
  | .g_K => mo.g_K
  | .g_L => mo.g_L
  | .E_Na => mo.E_Na
  | .E_K => mo.E_K
  | .E_L => mo.E_L

/-- The iteration order of the `neuron_params` dict in the source. -/
def paramList : List ParamName :=
  [.C_m, .g_Na, .g_K, .g_L, .E_Na, .E_K, .E_L]

/-- The simulation-relevant state of the `App` class.  `times` and the
`Y_*` lists are `self.times` and the `self.Y` dict of recorded
(decimated) samples; `running` models `self.timer.isActive()`. -/
structure AppState where
  model : Model
  sim_time : ℝ
  dt : ℝ
  timer_interval : ℝ
  times : List ℝ
  Y_Vs : List ℝ
  Y_m : List ℝ
  Y_h : List ℝ
  Y_n : List ℝ
  injection_amplitude : ℝ
  injection_duration : ℝ
  injection_end_time : ℝ
  plot_sampling : ℕ
  simulation_counter : ℕ
  running : Bool
  pause_when_steady : Bool

/-- `App.external_current` (app.py lines 347-348). -/
noncomputable def external_current (s : AppState) (t : ℝ) : ℝ :=
  if t < s.injection_end_time then s.injection_amplitude else 0.0

/-- `App.inject_current` (app.py lines 350-353); the two spinbox readings
are the arguments `a` (amplitude) and `d` (duration).  The pulse onset is
the current `sim_time`, so the stored end time is `sim_time + d`. -/
noncomputable def inject_current (a d : ℝ) (s : AppState) : AppState :=
  { s with injection_amplitude := a, injection_duration := d,
           injection_end_time := s.sim_time + d }

/-- `App.inject_and_pause` (app.py lines 355-361). -/
noncomputable def inject_and_pause (a d : ℝ) (s : AppState) : AppState :=
  { inject_current a d s with pause_when_steady := true }

/-- `App.toggle_pause` (app.py lines 371-382): stopping the timer when it
is active; restarting it and clearing `pause_when_steady` when it is not. -/
noncomputable def toggle_pause (s : AppState) : AppState :=
  if s.running then { s with running := false }
  else { s with running := true, pause_when_steady := false }

/-- `App.update_model_parameter` (app.py lines 158-160). -/
noncomputable def update_model_parameter (p : ParamName) (v : ℝ) (s : AppState) :
    AppState :=
  { s with model := s.model.setParam p v }

/-- `App.reset_model_params` (app.py lines 165-169): iterate the
`neuron_params` table, writing each default back onto the model. -/
noncomputable def reset_model_params (s : AppState) : AppState :=
  { s with model := paramList.foldl (fun mo p => mo.setParam p (paramDefault p)) s.model }

/-- Python `max` over a list of reals (`max(recent_V)` in app.py line 423);
the source never applies it to an empty list, for which we return `0`. -/
noncomputable def pyMax : List ℝ → ℝ
  | [] => 0
  | x :: xs => xs.foldl max x

/-- Python `min` over a list of reals (`min(recent_V)` in app.py line 423). -/
noncomputable def pyMin : List ℝ → ℝ
  | [] => 0
  | x :: xs => xs.foldl min x

/-- `steps = int(self.timer_interval / self.dt)` (app.py line 385); for the
nonnegative quotients the source runs with, Python truncation is the floor,
and for negative quotients both yield an empty burst. -/
noncomputable def stepsPerTick (s : AppState) : ℕ :=
  (Int.floor (s.timer_interval / s.dt)).toNat

/-- One iteration of the loop body of `App.update_simulation`
(app.py lines 386-398): stimulus from the pre-step `sim_time`, one model
step, clock advance, counter increment, and the decimated append. -/
noncomputable def simStep (s : AppState) : AppState :=
  let I_ext := external_current s s.sim_time
  let model2 := s.model.step s.dt I_ext
  let t2 := s.sim_time + s.dt
  let c2 := s.simulation_counter + 1
  if c2 % s.plot_sampling = 0 then
    { s with model := model2, sim_time := t2, simulation_counter := c2,
             times := s.times ++ [t2],
             Y_Vs := s.Y_Vs ++ [model2.V],
             Y_m := s.Y_m ++ [model2.m],
             Y_h := s.Y_h ++ [model2.h],
             Y_n := s.Y_n ++ [model2.n] }
  else
    { s with model := model2, sim_time := t2, simulation_counter := c2 }

/-- The steady-state auto-pause check at the end of `App.update_simulation`
(app.py lines 420-425): only when `pause_when_steady` is set and at least
`20*100` samples are recorded is the spread of the last `200` samples
examined; if it is below `1.0` mV the timer is stopped via `toggle_pause`
and the flag cleared. -/
noncomputable def steadyCheck (s : AppState) : AppState :=
  if s.pause_when_steady = true ∧ 20 * 100 ≤ s.Y_Vs.length then
    if pyMax (s.Y_Vs.drop (s.Y_Vs.length - 200)) -
        pyMin (s.Y_Vs.drop (s.Y_Vs.length - 200)) < 1.0 then
      { toggle_pause s with pause_when_steady := false }
    else s
  else s

/-- `App.update_simulation` (app.py lines 384-425): the burst of
`stepsPerTick` integration steps followed by the steady-state check
(the plot-redraw code in between touches no simulation state). -/
noncomputable def update_simulation (s : AppState) : AppState :=
  steadyCheck (simStep^[stepsPerTick s] s)

/-- A timer tick: `update_simulation` fires only while the timer is
active (a stopped `QTimer` delivers no timeouts). -/
noncomputable def onTick (s : AppState) : AppState :=
  if s.running then update_simulation s else s

/-- The `App.__init__` simulation state (app.py lines 106-143):
`sim_time = 0.0`, `dt = 0.01`, empty recording lists, default stimulus,
`plot_sampling = 10`, `timer_interval = 5`, timer started, flag clear. -/
noncomputable def initApp : AppState :=
  { model := Model.init, sim_time := 0.0, dt := 0.01, timer_interval := 5,
    times := [], Y_Vs := [], Y_m := [], Y_h := [], Y_n := [],
    injection_amplitude := 10.0, injection_duration := 1.0,
    injection_end_time := 0.0,
    plot_sampling := 10, simulation_counter := 0,
    running := true, pause_when_steady := false }

/-- A scheduler state with exactly `200` recorded samples of a constant
`-65.0` mV trace and `pause_when_steady` set: the spread over the last
`200` samples is `0`, yet the source's `20*100` guard has not been
reached. -/
noncomputable def steadyCexState : AppState :=
  { model := Model.init, sim_time := 20.0, dt := 0.01, timer_interval := 5,
    times := [], Y_Vs := List.replicate 200 (-65.0), Y_m := [], Y_h := [],
    Y_n := [],
    injection_amplitude := 10.0, injection_duration := 1.0,
    injection_end_time := 0.0,
    plot_sampling := 10, simulation_counter := 2000,
    running := true, pause_when_steady := true }

/-- A scheduler state with `2000` recorded samples of a constant `-65.0` mV
trace and `pause_when_steady` set: the source's `20*100` guard is met. -/
noncomputable def steadyWitnessState : AppState :=
  { model := Model.init, sim_time := 200.0, dt := 0.01, timer_interval := 5,
    times := [], Y_Vs := List.replicate 2000 (-65.0), Y_m := [], Y_h := [],
    Y_n := [],
    injection_amplitude := 10.0, injection_duration := 1.0,
    injection_end_time := 0.0,
    plot_sampling := 10, simulation_counter := 20000,
    running := true, pause_when_steady := true }

/-! ## Helper lemmas -/

/-- The clip used by `safe_exp` always lands in `[-50, 50]`. -/
theorem np_clip_mem (x : ℝ) : -50 ≤ np_clip x (-50) 50 ∧ np_clip x (-50) 50 ≤ 50 :=
  ⟨le_min (le_max_right _ _) (by norm_num), min_le_right _ _⟩

/-- If the clip to `[-50, 50]` returns `0`, the input was `0`. -/
theorem np_clip_eq_zero {x : ℝ} (hx : np_clip x (-50) 50 = 0) : x = 0 := by
  unfold np_clip at hx
  rcases min_eq_iff.mp hx with ⟨h1, _⟩ | ⟨h1, _⟩
  · rcases max_eq_iff.mp h1 with ⟨h2, _⟩ | ⟨h2, _⟩
    · exact h2
    · norm_num at h2
  · norm_num at h1

/-- Clipping below the band. -/
theorem np_clip_of_le {x : ℝ} (hx : x ≤ -50) : np_clip x (-50) 50 = -50 := by
  unfold np_clip
  rw [max_eq_right hx]
  exact min_eq_left (by norm_num)

/-- Clipping above the band. -/
theorem np_clip_of_ge {x : ℝ} (hx : 50 ≤ x) : np_clip x (-50) 50 = 50 := by
  unfold np_clip
  rw [max_eq_left (by linarith)]
  exact min_eq_right hx

/-- `safe_exp` is always in `[exp (-50), exp 50]`: the clamp makes
overflow impossible. -/
theorem safe_exp_bounds (x : ℝ) :
    Real.exp (-50) ≤ safe_exp x ∧ safe_exp x ≤ Real.exp 50 :=
  ⟨Real.exp_le_exp.mpr (np_clip_mem x).1, Real.exp_le_exp.mpr (np_clip_mem x).2⟩

/-- `safe_exp` is positive. -/
theorem safe_exp_pos (x : ℝ) : 0 < safe_exp x := Real.exp_pos _

/-- `1 - safe_exp z` vanishes only at `z = 0`. -/
theorem one_sub_safe_exp_ne {z : ℝ} (hz : z ≠ 0) : 1 - safe_exp z ≠ 0 := by
  intro h
  have h1 : safe_exp z = 1 := by linarith
  unfold safe_exp at h1
  rw [Real.exp_eq_one_iff] at h1
  exact hz (np_clip_eq_zero h1)

/-- `51 ≤ exp 50`. -/
theorem exp_fifty_ge : (51 : ℝ) ≤ Real.exp 50 := by
  have := Real.add_one_le_exp (50 : ℝ)
  linarith

/-- `exp (-50) ≤ 1/2`. -/
theorem exp_neg_fifty_le : Real.exp (-50) ≤ 1 / 2 := by
  rw [Real.exp_neg]
  have h2 : (2 : ℝ) ≤ Real.exp 50 := by linarith [exp_fifty_ge]
  calc (Real.exp 50)⁻¹ ≤ (2 : ℝ)⁻¹ := by
        apply inv_anti₀ (by norm_num) h2
    _ = 1 / 2 := by norm_num

/-- One simulation step: effect on the scalar bookkeeping fields. -/
theorem simStep_fields (s : AppState) :
    (simStep s).dt = s.dt ∧ (simStep s).timer_interval = s.timer_interval ∧
    (simStep s).running = s.running ∧
    (simStep s).pause_when_steady = s.pause_when_steady ∧
    (simStep s).plot_sampling = s.plot_sampling ∧
    (simStep s).sim_time = s.sim_time + s.dt ∧
    (simStep s).simulation_counter = s.simulation_counter + 1 := by
  simp only [simStep]
  split <;> exact ⟨rfl, rfl, rfl, rfl, rfl, rfl, rfl⟩

/-- Iterated simulation steps: effect on the scalar bookkeeping fields. -/
theorem simStep_iter (k : ℕ) (s : AppState) :
    (simStep^[k] s).dt = s.dt ∧
    (simStep^[k] s).timer_interval = s.timer_interval ∧
    (simStep^[k] s).running = s.running ∧
    (simStep^[k] s).pause_when_steady = s.pause_when_steady ∧
    (simStep^[k] s).plot_sampling = s.plot_sampling ∧
    (simStep^[k] s).sim_time = s.sim_time + k * s.dt ∧
    (simStep^[k] s).simulation_counter = s.simulation_counter + k := by
  induction k with
  | zero => simp
  | succ j ih =>
    obtain ⟨h1, h2, h3, h4, h5, h6, h7⟩ := ih
    obtain ⟨g1, g2, g3, g4, g5, g6, g7⟩ := simStep_fields (simStep^[j] s)
    rw [Function.iterate_succ_apply']
    refine ⟨by rw [g1, h1], by rw [g2, h2], by rw [g3, h3], by rw [g4, h4],
      by rw [g5, h5], ?_, ?_⟩
    · rw [g6, h6, h1]
      push_cast
      ring
    · rw [g7, h7]
      omega

/-- `toggle_pause` leaves the clock, step sizes and buffers alone. -/
theorem toggle_pause_fields (s : AppState) :
    (toggle_pause s).sim_time = s.sim_time ∧ (toggle_pause s).dt = s.dt ∧
    (toggle_pause s).timer_interval = s.timer_interval ∧
    (toggle_pause s).Y_Vs = s.Y_Vs := by
  unfold toggle_pause
  split <;> exact ⟨rfl, rfl, rfl, rfl⟩

/-- With the flag clear the steady-state check is the identity. -/
theorem steadyCheck_of_not_pause {s : AppState}
    (hp : s.pause_when_steady = false) : steadyCheck s = s := by
  unfold steadyCheck
  rw [if_neg]
  simp [hp]

/-- The steady-state check never touches the clock or the step sizes. -/
theorem steadyCheck_fields (s : AppState) :
    (steadyCheck s).sim_time = s.sim_time ∧ (steadyCheck s).dt = s.dt ∧
    (steadyCheck s).timer_interval = s.timer_interval := by
  unfold steadyCheck
  split
  · split
    · exact ⟨(toggle_pause_fields s).1, (toggle_pause_fields s).2.1,
        (toggle_pause_fields s).2.2.1⟩
    · exact ⟨rfl, rfl, rfl⟩
  · exact ⟨rfl, rfl, rfl⟩

/-- A tick while running with the auto-pause flag clear: the clock advances
by one burst and the mode bits and rates are preserved. -/
theorem onTick_run {s : AppState} (hr : s.running = true)
    (hp : s.pause_when_steady = false) :
    (onTick s).sim_time = s.sim_time + (stepsPerTick s : ℝ) * s.dt ∧
    (onTick s).running = true ∧ (onTick s).pause_when_steady = false ∧
    (onTick s).dt = s.dt ∧ (onTick s).timer_interval = s.timer_interval := by
  unfold onTick update_simulation
  rw [if_pos hr]
  obtain ⟨h1, h2, h3, h4, h5, h6, h7⟩ := simStep_iter (stepsPerTick s) s
  rw [steadyCheck_of_not_pause (by rw [h4, hp])]
  exact ⟨h6, by rw [h3, hr], by rw [h4, hp], h1, h2⟩

/-- `stepsPerTick` only depends on `dt` and `timer_interval`. -/
theorem stepsPerTick_congr {s t : AppState} (hdt : t.dt = s.dt)
    (hti : t.timer_interval = s.timer_interval) :
    stepsPerTick t = stepsPerTick s := by
  unfold stepsPerTick
  rw [hdt, hti]

/-- Iterated ticks from a running state with the auto-pause flag clear. -/
theorem onTick_iter (k : ℕ) (s : AppState) (hr : s.running = true)
    (hp : s.pause_when_steady = false) :
    (onTick^[k] s).sim_time =
      s.sim_time + (k : ℝ) * (stepsPerTick s : ℝ) * s.dt ∧
    (onTick^[k] s).running = true ∧
    (onTick^[k] s).pause_when_steady = false ∧
    (onTick^[k] s).dt = s.dt ∧
    (onTick^[k] s).timer_interval = s.timer_interval := by
  induction k with
  | zero => simpa using ⟨hr, hp⟩
  | succ j ih =>
    obtain ⟨h1, h2, h3, h4, h5⟩ := ih
    obtain ⟨g1, g2, g3, g4, g5⟩ := onTick_run h2 h3
    have hsame : stepsPerTick (onTick^[j] s) = stepsPerTick s :=
      stepsPerTick_congr h4 h5
    rw [Function.iterate_succ_apply']
    refine ⟨?_, g2, g3, by rw [g4, h4], by rw [g5, h5]⟩
    rw [g1, h1, h4, hsame]
    push_cast
    ring

/-- One simulation step keeps the invariant that every recording list has
`counter / plot_sampling` entries. -/
theorem simStep_len_inv {s : AppState}
    (h1 : s.Y_Vs.length = s.simulation_counter / s.plot_sampling)
    (h2 : s.times.length = s.simulation_counter / s.plot_sampling)
    (h3 : s.Y_m.length = s.simulation_counter / s.plot_sampling)
    (h4 : s.Y_h.length = s.simulation_counter / s.plot_sampling)
    (h5 : s.Y_n.length = s.simulation_counter / s.plot_sampling) :
    (simStep s).Y_Vs.length =
      (simStep s).simulation_counter / (simStep s).plot_sampling ∧
    (simStep s).times.length =
      (simStep s).simulation_counter / (simStep s).plot_sampling ∧
    (simStep s).Y_m.length =
      (simStep s).simulation_counter / (simStep s).plot_sampling ∧
    (simStep s).Y_h.length =
      (simStep s).simulation_counter / (simStep s).plot_sampling ∧
    (simStep s).Y_n.length =
      (simStep s).simulation_counter / (simStep s).plot_sampling := by
  obtain ⟨-, -, -, -, g5, -, g7⟩ := simStep_fields s
  rw [g5, g7]
  have hdiv : (s.simulation_counter + 1) / s.plot_sampling =
      s.simulation_counter / s.plot_sampling +
        (if s.plot_sampling ∣ s.simulation_counter + 1 then 1 else 0) :=
    Nat.succ_div _ _
  simp only [simStep]
  split
  · rename_i hmod
    have hdvd : s.plot_sampling ∣ s.simulation_counter + 1 :=
      Nat.dvd_of_mod_eq_zero hmod
    rw [hdiv, if_pos hdvd]
    simp [h1, h2, h3, h4, h5]
  · rename_i hmod
    have hdvd : ¬ s.plot_sampling ∣ s.simulation_counter + 1 := by
      intro hd
      exact hmod (Nat.mod_eq_zero_of_dvd hd)
    rw [hdiv, if_neg hdvd]
    simp [h1, h2, h3, h4, h5]

/-- Iterating the invariant of `simStep_len_inv`. -/
theorem simStep_iter_len (k : ℕ) (s : AppState)
    (h1 : s.Y_Vs.length = s.simulation_counter / s.plot_sampling)
    (h2 : s.times.length = s.simulation_counter / s.plot_sampling)
    (h3 : s.Y_m.length = s.simulation_counter / s.plot_sampling)
    (h4 : s.Y_h.length = s.simulation_counter / s.plot_sampling)
    (h5 : s.Y_n.length = s.simulation_counter / s.plot_sampling) :
    (simStep^[k] s).Y_Vs.length =
      (simStep^[k] s).simulation_counter / (simStep^[k] s).plot_sampling ∧
    (simStep^[k] s).times.length =
      (simStep^[k] s).simulation_counter / (simStep^[k] s).plot_sampling ∧
    (simStep^[k] s).Y_m.length =
      (simStep^[k] s).simulation_counter / (simStep^[k] s).plot_sampling ∧
    (simStep^[k] s).Y_h.length =
      (simStep^[k] s).simulation_counter / (simStep^[k] s).plot_sampling ∧
    (simStep^[k] s).Y_n.length =
      (simStep^[k] s).simulation_counter / (simStep^[k] s).plot_sampling := by
  induction k with
  | zero => exact ⟨h1, h2, h3, h4, h5⟩
  | succ j ih =>
    obtain ⟨i1, i2, i3, i4, i5⟩ := ih
    rw [Function.iterate_succ_apply']
    exact simStep_len_inv i1 i2 i3 i4 i5

/-- Folding `max` over copies of an element returns that element. -/
theorem foldl_max_replicate (x : ℝ) (k : ℕ) :
    List.foldl max x (List.replicate k x) = x := by
  induction k with
  | zero => rfl
  | succ j ih => rw [List.replicate_succ, List.foldl_cons, max_self]; exact ih

/-- Folding `min` over copies of an element returns that element. -/
theorem foldl_min_replicate (x : ℝ) (k : ℕ) :
    List.foldl min x (List.replicate k x) = x := by
  induction k with
  | zero => rfl
  | succ j ih => rw [List.replicate_succ, List.foldl_cons, min_self]; exact ih

/-- Python `max` of a nonempty constant list. -/
theorem pyMax_replicate {k : ℕ} (hk : k ≠ 0) (x : ℝ) :
    pyMax (List.replicate k x) = x := by
  cases k with
  | zero => exact absurd rfl hk
  | succ j =>
    rw [List.replicate_succ]
    exact foldl_max_replicate x j

/-- Python `min` of a nonempty constant list. -/
theorem pyMin_replicate {k : ℕ} (hk : k ≠ 0) (x : ℝ) :
    pyMin (List.replicate k x) = x := by
  cases k with
  | zero => exact absurd rfl hk
  | succ j =>
    rw [List.replicate_succ]
    exact foldl_min_replicate x j

/-! ## The claims -/

/-- C1: for every state, every `dt > 0` and every `I_ext`, `step` performs
exactly the spec's four-stage update: gating derivatives from the pre-update
state, gating increments, ionic currents from the updated gating variables
but the pre-update `V`, and finally the voltage increment. -/
theorem step_matches_spec (s : Model) (dt I_ext : ℝ) (hdt : 0 < dt) :
    Model.step s dt I_ext = stepSpec s dt I_ext := rfl

/-- Witness for C1 at `dt = 1`, `I_ext = 0` on the initial model. -/
theorem step_matches_spec_witness :
    0 < (1 : ℝ) ∧ Model.step Model.init 1 0 = stepSpec Model.init 1 0 :=
  ⟨by norm_num, step_matches_spec Model.init 1 0 (by norm_num)⟩

/-- C2: the removable-singularity overrides of `alpha_n` and `alpha_m`:
inside the band `|V + 55| < 1e-6` the function `alpha_n` returns exactly
`0.1`, inside `|V + 40| < 1e-6` the function `alpha_m` returns exactly
`1.0`; in particular `alpha_n (-55) = 0.1` and `alpha_m (-40) = 1.0` with no
`0/0` indeterminacy; outside the bands each equals its closed-form quotient,
where the exponential is the overflow-clamped `safe_exp` that every rate
function of the source uses. -/
theorem alpha_singularity_overrides :
    (∀ V : ℝ, |V + 55| < 1e-6 → alpha_n V = 0.1) ∧
    (∀ V : ℝ, |V + 40| < 1e-6 → alpha_m V = 1.0) ∧
    alpha_n (-55) = 0.1 ∧ alpha_m (-40) = 1.0 ∧
    (∀ V : ℝ, ¬ |V + 55| < 1e-6 →
      alpha_n V = 0.01 * (V + 55) / (1 - safe_exp (-(V + 55) / 10))) ∧
    (∀ V : ℝ, ¬ |V + 40| < 1e-6 →
      alpha_m V = 0.1 * (V + 40) / (1 - safe_exp (-(V + 40) / 10))) := by
  refine ⟨fun V hV => ?_, fun V hV => ?_, ?_, ?_, fun V hV => ?_, fun V hV => ?_⟩
  · unfold alpha_n; rw [if_pos hV]
  · unfold alpha_m; rw [if_pos hV]
  · unfold alpha_n; rw [if_pos (by norm_num)]
  · unfold alpha_m; rw [if_pos (by norm_num)]
  · unfold alpha_n; rw [if_neg hV]
  · unfold alpha_m; rw [if_neg hV]

/-- Witness for C2 at the singular points themselves. -/
theorem alpha_singularity_overrides_witness :
    |(-55 : ℝ) + 55| < 1e-6 ∧ alpha_n (-55) = 0.1 ∧
    |(-40 : ℝ) + 40| < 1e-6 ∧ alpha_m (-40) = 1.0 :=
  ⟨by norm_num, alpha_singularity_overrides.1 (-55) (by norm_num),
   by norm_num, alpha_singularity_overrides.2.1 (-40) (by norm_num)⟩

/-- C3: every rate function clamps its exponent to `[-50, 50]` before `exp`
(all six are defined through the shared helper `safe_exp`, whose output is
trapped in `[exp (-50), exp 50]`), its denominators never vanish, and each
rate function returns a well-defined bounded value everywhere — with
explicit finite bounds at `V = 1e6` and `V = -1e6` for the two
singularity-guarded functions and global bounds for the other four. -/
theorem rate_functions_overflow_safe :
    (∀ x : ℝ, -50 ≤ np_clip x (-50) 50 ∧ np_clip x (-50) 50 ≤ 50) ∧
    (∀ x : ℝ, Real.exp (-50) ≤ safe_exp x ∧ safe_exp x ≤ Real.exp 50) ∧
    (∀ V : ℝ, ¬ |V + 55| < 1e-6 → 1 - safe_exp (-(V + 55) / 10) ≠ 0) ∧
    (∀ V : ℝ, ¬ |V + 40| < 1e-6 → 1 - safe_exp (-(V + 40) / 10) ≠ 0) ∧
    (∀ V : ℝ, 1 + safe_exp (-(V + 35) / 10) ≠ 0) ∧
    (∀ V : ℝ, 0 < beta_n V ∧ beta_n V ≤ 0.125 * Real.exp 50) ∧
    (∀ V : ℝ, 0 < beta_m V ∧ beta_m V ≤ 4.0 * Real.exp 50) ∧
    (∀ V : ℝ, 0 < alpha_h V ∧ alpha_h V ≤ 0.07 * Real.exp 50) ∧
    (∀ V : ℝ, 0 < beta_h V ∧ beta_h V ≤ 1) ∧
    (0 < alpha_n 1e6 ∧ alpha_n 1e6 ≤ 20002) ∧
    (0 < alpha_n (-1e6) ∧ alpha_n (-1e6) ≤ 10000) ∧
    (0 < alpha_m 1e6 ∧ alpha_m 1e6 ≤ 200010) ∧
    (0 < alpha_m (-1e6) ∧ alpha_m (-1e6) ≤ 100000) := by
  have hhalf := exp_neg_fifty_le
  have h51 := exp_fifty_ge
  have hpos := Real.exp_pos (-50 : ℝ)
  refine ⟨np_clip_mem, safe_exp_bounds, fun V hV => ?_, fun V hV => ?_,
    fun V => ?_, fun V => ?_, fun V => ?_, fun V => ?_, fun V => ?_,
    ?_, ?_, ?_, ?_⟩
  · apply one_sub_safe_exp_ne
    intro h0
    apply hV
    have hnum : V + 55 = 0 := by
      rcases div_eq_zero_iff.mp h0 with h | h
      · linarith
      · norm_num at h
    rw [hnum]
    norm_num
  · apply one_sub_safe_exp_ne
    intro h0
    apply hV
    have hnum : V + 40 = 0 := by
      rcases div_eq_zero_iff.mp h0 with h | h
      · linarith
      · norm_num at h
    rw [hnum]
    norm_num
  · have := safe_exp_pos (-(V + 35) / 10)
    intro h
    linarith
  · unfold beta_n
    constructor
    · exact mul_pos (by norm_num) (safe_exp_pos _)
    · exact mul_le_mul_of_nonneg_left (safe_exp_bounds _).2 (by norm_num)
  · unfold beta_m
    constructor
    · exact mul_pos (by norm_num) (safe_exp_pos _)
    · exact mul_le_mul_of_nonneg_left (safe_exp_bounds _).2 (by norm_num)
  · unfold alpha_h
    constructor
    · exact mul_pos (by norm_num) (safe_exp_pos _)
    · exact mul_le_mul_of_nonneg_left (safe_exp_bounds _).2 (by norm_num)
  · unfold beta_h
    have he := safe_exp_pos (-(V + 35) / 10)
    constructor
    · exact div_pos one_pos (by linarith)
    · rw [div_le_one (by linarith)]
      linarith
  · unfold alpha_n
    rw [if_neg (by norm_num)]
    rw [show -((1e6 : ℝ) + 55) / 10 = -100005.5 by norm_num]
    unfold safe_exp
    rw [np_clip_of_le (by norm_num)]
    constructor
    · exact div_pos (by norm_num) (by linarith)
    · have hle : 0.01 * ((1e6 : ℝ) + 55) / (1 - Real.exp (-50)) ≤
          0.01 * ((1e6 : ℝ) + 55) / (1 / 2) :=
        div_le_div_of_nonneg_left (by norm_num) (by norm_num) (by linarith)
      have hval : (0.01 : ℝ) * (1e6 + 55) / (1 / 2) = 20001.1 := by norm_num
      linarith
  · unfold alpha_n
    rw [if_neg (by norm_num)]
    rw [show -((-1e6 : ℝ) + 55) / 10 = 99994.5 by norm_num]
    unfold safe_exp
    rw [np_clip_of_ge (by norm_num)]
    constructor
    · exact div_pos_of_neg_of_neg (by norm_num) (by linarith)
    · rw [div_le_iff_of_neg (by linarith)]
      nlinarith
  · unfold alpha_m
    rw [if_neg (by norm_num)]
    rw [show -((1e6 : ℝ) + 40) / 10 = -100004 by norm_num]
    unfold safe_exp
    rw [np_clip_of_le (by norm_num)]
    constructor
    · exact div_pos (by norm_num) (by linarith)
    · have hle : 0.1 * ((1e6 : ℝ) + 40) / (1 - Real.exp (-50)) ≤
          0.1 * ((1e6 : ℝ) + 40) / (1 / 2) :=
        div_le_div_of_nonneg_left (by norm_num) (by norm_num) (by linarith)
      have hval : (0.1 : ℝ) * (1e6 + 40) / (1 / 2) = 200008 := by norm_num
      linarith
  · unfold alpha_m
    rw [if_neg (by norm_num)]
    rw [show -((-1e6 : ℝ) + 40) / 10 = 99996 by norm_num]
    unfold safe_exp
    rw [np_clip_of_ge (by norm_num)]
    constructor
    · exact div_pos_of_neg_of_neg (by norm_num) (by linarith)
    · rw [div_le_iff_of_neg (by linarith)]
      nlinarith

/-- Witness for C3: the denominator conjuncts instantiated at `V = 0`. -/
theorem rate_functions_overflow_safe_witness :
    ¬ |(0 : ℝ) + 55| < 1e-6 ∧ 1 - safe_exp (-((0 : ℝ) + 55) / 10) ≠ 0 ∧
    ¬ |(0 : ℝ) + 40| < 1e-6 ∧ 1 - safe_exp (-((0 : ℝ) + 40) / 10) ≠ 0 :=
  ⟨by norm_num, rate_functions_overflow_safe.2.2.1 0 (by norm_num),
   by norm_num, rate_functions_overflow_safe.2.2.2.1 0 (by norm_num)⟩

/-- C4: with a positive step size, (a) from any running state with the
auto-pause flag clear, `k` ticks advance the clock by exactly
`k * stepsPerTick * dt` (exact over the reals; the claim's tolerance covers
float accumulation), where `stepsPerTick = floor(timer_interval / dt)` and
each of the `stepsPerTick` steps inside a tick advances the clock by `dt`;
(b) while paused a tick does not fire and leaves the state (hence the
clock) unchanged; (c) the clock never decreases across a tick. -/
theorem tick_clock (s : AppState) (hdt : 0 < s.dt) :
    (s.running = true → s.pause_when_steady = false →
      ∀ k : ℕ, (onTick^[k] s).sim_time =
        s.sim_time + (k : ℝ) * (stepsPerTick s : ℝ) * s.dt) ∧
    (s.running = false → onTick s = s) ∧
    s.sim_time ≤ (onTick s).sim_time := by
  refine ⟨fun hr hp k => (onTick_iter k s hr hp).1, fun hr => ?_, ?_⟩
  · unfold onTick
    rw [if_neg]
    simp [hr]
  · rcases hrun : s.running with _ | _
    · unfold onTick
      rw [if_neg]
      simp [hrun]
    · unfold onTick update_simulation
      rw [if_pos hrun]
      have h6 := (simStep_iter (stepsPerTick s) s).2.2.2.2.2.1
      have hs := (steadyCheck_fields (simStep^[stepsPerTick s] s)).1
      rw [hs, h6]
      have : 0 ≤ (stepsPerTick s : ℝ) * s.dt :=
        mul_nonneg (Nat.cast_nonneg _) hdt.le
      linarith

/-- Witness for C4: three ticks from the freshly constructed app state. -/
theorem tick_clock_witness :
    0 < initApp.dt ∧ initApp.running = true ∧
    initApp.pause_when_steady = false ∧
    (onTick^[3] initApp).sim_time =
      initApp.sim_time + ((3 : ℕ) : ℝ) * (stepsPerTick initApp : ℝ) * initApp.dt :=
  ⟨by norm_num [initApp], rfl, rfl,
    (tick_clock initApp (by norm_num [initApp])).1 rfl rfl 3⟩

/-- C5 counterexample: a state in which every trigger condition of the
claim holds under its stated 200-sample lookback — `pause_when_steady` is
set, 200 samples are recorded, and the spread of the last 200 samples is
below 1.0 mV — yet the steady-state check changes nothing: the scheduler
stays running with the flag still set, because the source's guard demands
`20*100 = 2000` recorded samples before it ever looks. -/
theorem steady_lookback_counterexample :
    steadyCexState.pause_when_steady = true ∧
    steadyCexState.running = true ∧
    200 ≤ steadyCexState.Y_Vs.length ∧
    pyMax (steadyCexState.Y_Vs.drop (steadyCexState.Y_Vs.length - 200)) -
      pyMin (steadyCexState.Y_Vs.drop (steadyCexState.Y_Vs.length - 200)) < 1.0 ∧
    steadyCheck steadyCexState = steadyCexState ∧
    (steadyCheck steadyCexState).running = true ∧
    (steadyCheck steadyCexState).pause_when_steady = true := by
  have hV : steadyCexState.Y_Vs = List.replicate 200 (-65.0) := rfl
  have hlen : steadyCexState.Y_Vs.length = 200 := by
    rw [hV, List.length_replicate]
  have hdrop : steadyCexState.Y_Vs.drop (steadyCexState.Y_Vs.length - 200) =
      List.replicate 200 (-65.0) := by
    rw [hlen, hV, List.drop_replicate]
  have hid : steadyCheck steadyCexState = steadyCexState := by
    unfold steadyCheck
    rw [if_neg]
    intro hcontra
    rw [hlen] at hcontra
    omega
  refine ⟨rfl, rfl, by rw [hlen], ?_, hid, by rw [hid]; rfl, by rw [hid]; rfl⟩
  rw [hdrop, pyMax_replicate (by norm_num), pyMin_replicate (by norm_num)]
  norm_num

/-- C5 (amended): the steady-state predicate is evaluated at the end of
each tick burst, but only once the recorded sample count reaches the
hardcoded `20*100 = 2000` (not 200) decimated samples; when it is evaluated
and `max(V) - min(V)` over the last 200 recorded samples is below 1.0 mV,
the scheduler transitions to Paused and clears `pause_when_steady`. -/
theorem steady_autopause (s : AppState) (hr : s.running = true)
    (hp : s.pause_when_steady = true)
    (hlen : 20 * 100 ≤ s.Y_Vs.length)
    (hspread : pyMax (s.Y_Vs.drop (s.Y_Vs.length - 200)) -
      pyMin (s.Y_Vs.drop (s.Y_Vs.length - 200)) < 1.0) :
    (steadyCheck s).running = false ∧
    (steadyCheck s).pause_when_steady = false ∧
    onTick s = steadyCheck (simStep^[stepsPerTick s] s) ∧
    (∀ t : AppState, t.Y_Vs.length < 20 * 100 → steadyCheck t = t) := by
  have hmain : steadyCheck s = { toggle_pause s with pause_when_steady := false } := by
    unfold steadyCheck
    rw [if_pos ⟨hp, hlen⟩, if_pos hspread]
  refine ⟨?_, ?_, ?_, ?_⟩
  · rw [hmain]
    show (toggle_pause s).running = false
    unfold toggle_pause
    rw [if_pos hr]
  · rw [hmain]
  · unfold onTick update_simulation
    rw [if_pos hr]
  · intro t ht
    unfold steadyCheck
    rw [if_neg]
    intro hcontra
    exact absurd hcontra.2 (by omega)

/-- Witness for C5: a steady 2000-sample constant trace does pause. -/
theorem steady_autopause_witness :
    (steadyCheck steadyWitnessState).running = false ∧
    (steadyCheck steadyWitnessState).pause_when_steady = false := by
  have hV : steadyWitnessState.Y_Vs = List.replicate 2000 (-65.0) := rfl
  have hlen : steadyWitnessState.Y_Vs.length = 2000 := by
    rw [hV, List.length_replicate]
  have hdrop : steadyWitnessState.Y_Vs.drop (steadyWitnessState.Y_Vs.length - 200) =
      List.replicate 200 (-65.0) := by
    rw [hlen, hV, List.drop_replicate]
  have h := steady_autopause steadyWitnessState rfl rfl (by rw [hlen])
    (by rw [hdrop, pyMax_replicate (by norm_num), pyMin_replicate (by norm_num)]
        norm_num)
  exact ⟨h.1, h.2.1⟩

/-- C6: the stimulus current at time `t` is the stored amplitude while
`t < injection_end_time` and `0` afterwards; `inject_current a d` stores
the amplitude and duration and sets the pulse end to the onset (the
current `sim_time`) plus `d`; and a second call wholly replaces the
first — the resulting state is identical to injecting only the second
pulse, so overlapping pulses are never summed. -/
theorem stimulus_pulse_semantics :
    (∀ (s : AppState) (t : ℝ),
      (t < s.injection_end_time → external_current s t = s.injection_amplitude) ∧
      (s.injection_end_time ≤ t → external_current s t = 0)) ∧
    (∀ (s : AppState) (a d : ℝ),
      (inject_current a d s).injection_amplitude = a ∧
      (inject_current a d s).injection_duration = d ∧
      (inject_current a d s).injection_end_time = s.sim_time + d) ∧
    (∀ (s : AppState) (a1 d1 a2 d2 : ℝ),
      inject_current a2 d2 (inject_current a1 d1 s) = inject_current a2 d2 s) := by
  refine ⟨fun s t => ⟨fun ht => ?_, fun ht => ?_⟩,
    fun s a d => ⟨rfl, rfl, rfl⟩, fun s a1 d1 a2 d2 => rfl⟩
  · unfold external_current
    rw [if_pos ht]
  · unfold external_current
    rw [if_neg (not_lt.mpr ht)]
    norm_num

/-- Witness for C6 on the initial state at `t = -1 < endTime = 0`. -/
theorem stimulus_pulse_semantics_witness :
    (-1 : ℝ) < initApp.injection_end_time ∧
    external_current initApp (-1) = initApp.injection_amplitude :=
  ⟨by norm_num [initApp],
    (stimulus_pulse_semantics.1 initApp (-1)).1 (by norm_num [initApp])⟩

/-- C9: for every parameter name of the documented table and every real
value — in range or not — `update_model_parameter` stores the value into
the model unchanged: the engine performs no validation, clamping or
rejection (range enforcement lives only in the surrounding spinboxes). -/
theorem set_parameter_stores_unchanged :
    ∀ (s : AppState) (p : ParamName) (v : ℝ),
      ((update_model_parameter p v s).model).getParam p = v := by
  intro s p v
  cases p <;> rfl

/-- C10: `reset_model_params` restores all seven parameters to their
documented defaults and leaves the dynamic state `V, m, h, n`, the
simulated time and the recording buffers untouched. -/
theorem reset_params_defaults_and_frame (s : AppState) :
    (reset_model_params s).model.C_m = 1.0 ∧
    (reset_model_params s).model.g_Na = 120.0 ∧
    (reset_model_params s).model.g_K = 36.0 ∧
    (reset_model_params s).model.g_L = 0.3 ∧
    (reset_model_params s).model.E_Na = 50.0 ∧
    (reset_model_params s).model.E_K = -77.0 ∧
    (reset_model_params s).model.E_L = -54.387 ∧
    (reset_model_params s).model.V = s.model.V ∧
    (reset_model_params s).model.m = s.model.m ∧
    (reset_model_params s).model.h = s.model.h ∧
    (reset_model_params s).model.n = s.model.n ∧
    (reset_model_params s).sim_time = s.sim_time ∧
    (reset_model_params s).times = s.times ∧
    (reset_model_params s).Y_Vs = s.Y_Vs ∧
    (reset_model_params s).Y_m = s.Y_m ∧
    (reset_model_params s).Y_h = s.Y_h ∧
    (reset_model_params s).Y_n = s.Y_n :=
  ⟨rfl, rfl, rfl, rfl, rfl, rfl, rfl, rfl, rfl, rfl, rfl, rfl, rfl, rfl,
   rfl, rfl, rfl⟩

/-- C7: with decimation factor `plot_sampling = N > 0`, starting from a
fresh recording state (counter `0`, all five recording lists empty), after
`S` integration steps every recording list has exactly `S / N` (floor)
entries: one sample is appended per `N` steps, at steps `N, 2N, 3N, ...`. -/
theorem decimated_buffer_length (s : AppState) (hN : 0 < s.plot_sampling)
    (hc : s.simulation_counter = 0) (hV : s.Y_Vs = []) (ht : s.times = [])
    (hm : s.Y_m = []) (hh : s.Y_h = []) (hn : s.Y_n = []) (S : ℕ) :
    (simStep^[S] s).Y_Vs.length = S / s.plot_sampling ∧
    (simStep^[S] s).times.length = S / s.plot_sampling ∧
    (simStep^[S] s).Y_m.length = S / s.plot_sampling ∧
    (simStep^[S] s).Y_h.length = S / s.plot_sampling ∧
    (simStep^[S] s).Y_n.length = S / s.plot_sampling := by
  have hz : (0 : ℕ) = s.simulation_counter / s.plot_sampling := by
    rw [hc, Nat.zero_div]
  obtain ⟨i1, i2, i3, i4, i5⟩ := simStep_iter_len S s
    (by rw [hV]; exact hz) (by rw [ht]; exact hz) (by rw [hm]; exact hz)
    (by rw [hh]; exact hz) (by rw [hn]; exact hz)
  obtain ⟨-, -, -, -, g5, -, g7⟩ := simStep_iter S s
  rw [g5, g7, hc] at i1 i2 i3 i4 i5
  rw [Nat.zero_add] at i1 i2 i3 i4 i5
  exact ⟨i1, i2, i3, i4, i5⟩

/-- Witness for C7: 25 steps at decimation 10 on the fresh app state give
buffers of length `25 / 10 = 2`. -/
theorem decimated_buffer_length_witness :
    0 < initApp.plot_sampling ∧
    (simStep^[25] initApp).Y_Vs.length = 25 / initApp.plot_sampling :=
  ⟨by norm_num [initApp],
    (decimated_buffer_length initApp (by norm_num [initApp]) rfl rfl rfl
      rfl rfl rfl 25).1⟩

end HHSim
